import Mathlib

/-!
Shallow embedding of `src/main.py` (babyagi-2o): the tool registry, the tool
executor with result serialization, the dynamic tool definer, and the main
agent loop, together with theorems about the behaviours the specification
describes.

Python values that can flow through `json.dumps` / tool results are modelled
by the inductive type `Value`; external collaborators (the litellm completion
call, `json.loads`, `exec`, `subprocess`-based pip install) are modelled as
oracle functions collected in an `Env` record, as the spec treats them as
opaque boundaries.
-/

namespace BabyAgi

/-- A Python value as it appears in tool arguments and tool results.
`obj` stands for a Python object that `json.dumps` cannot serialize
(e.g. a function object); its field is what `str()` renders it as. -/
inductive Value where
  | null
  | bool (b : Bool)
  | int (n : Int)
  | str (s : String)
  | arr (xs : List Value)
  | dict (kvs : List (String × Value))
  | obj (srepr : String)

/-- Escape one character the way the JSON encoder does for the characters
that matter here (backslash and double quote). -/
def jsonEscapeChar (c : Char) : String :=
  if c = '\\' then "\\\\" else if c = '\"' then "\\\"" else String.singleton c

/-- A JSON string literal: quotes around the escaped text. -/
def jsonQuote (s : String) : String :=
  "\"" ++ String.join (s.data.map jsonEscapeChar) ++ "\""

mutual

/-- Modelled from the Python stdlib: `json.dumps`. Returns `none` exactly when
the value contains a non-serializable object, which is the `TypeError` case of
the source's `try: json.dumps(tool_result) except TypeError`. -/
def jsonDumps : Value → Option String
  | Value.null => some "null"
  | Value.bool b => some (if b then "true" else "false")
  | Value.int n => some (toString n)
  | Value.str s => some (jsonQuote s)
  | Value.arr xs =>
      match jsonDumpsElems xs with
      | some body => some ("[" ++ body ++ "]")
      | none => none
  | Value.dict kvs =>
      match jsonDumpsMembers kvs with
      | some body => some ("\x7b" ++ body ++ "\x7d")
      | none => none
  | Value.obj _ => none

/-- Comma-joined serialization of a JSON array's elements. -/
def jsonDumpsElems : List Value → Option String
  | [] => some ""
  | [v] => jsonDumps v
  | v :: w :: rest =>
      match jsonDumps v, jsonDumpsElems (w :: rest) with
      | some s, some t => some (s ++ ", " ++ t)
      | _, _ => none

/-- Comma-joined serialization of a JSON object's members. -/
def jsonDumpsMembers : List (String × Value) → Option String
  | [] => some ""
  | [(k, v)] =>
      match jsonDumps v with
      | some s => some (jsonQuote k ++ ": " ++ s)
      | none => none
  | (k, v) :: p :: rest =>
      match jsonDumps v, jsonDumpsMembers (p :: rest) with
      | some s, some t => some (jsonQuote k ++ ": " ++ s ++ ", " ++ t)
      | _, _ => none

end

mutual

/-- Modelled from the Python stdlib: `str()` applied to a value, the
best-effort fallback of `serialize_tool_result`. Total by construction. -/
def pyStr : Value → String
  | Value.null => "None"
  | Value.bool b => if b then "True" else "False"
  | Value.int n => toString n
  | Value.str s => s
  | Value.arr xs => "[" ++ pyStrElems xs ++ "]"
  | Value.dict kvs => "\x7b" ++ pyStrMembers kvs ++ "\x7d"
  | Value.obj srepr => srepr

/-- Comma-joined `repr` of a Python list's elements. -/
def pyStrElems : List Value → String
  | [] => ""
  | [v] => pyStr v
  | v :: w :: rest => pyStr v ++ ", " ++ pyStrElems (w :: rest)

/-- Comma-joined `repr` of a Python dict's items. -/
def pyStrMembers : List (String × Value) → String
  | [] => ""
  | [(k, v)] => jsonQuote k ++ ": " ++ pyStr v
  | (k, v) :: p :: rest => jsonQuote k ++ ": " ++ pyStr v ++ ", " ++ pyStrMembers (p :: rest)

end

/-- Python string slicing `s[:n]`: the first `n` characters. -/
def pySlice (s : String) (n : Nat) : String := String.mk (s.data.take n)

/-- ANSI color escape codes from the `Colors` class (only the two that end up
inside conversation content via the truncation notice). -/
def ColorsWARNING : String := "\x1b[93m"

/-- ANSI reset code `Colors.ENDC`. -/
def ColorsENDC : String := "\x1b[0m"

/-- `MAX_TOOL_OUTPUT_LENGTH` from the configuration section. -/
def MAX_TOOL_OUTPUT_LENGTH : Nat := 5000

/-- The serialization step of `serialize_tool_result`: `json.dumps` when it
succeeds, otherwise `str`. -/
def serializedText (tool_result : Value) : String :=
  match jsonDumps tool_result with
  | some s => s
  | none => pyStr tool_result

/-- The truncation notice appended when a serialized result is longer than
`max_length` (the f-string of `serialize_tool_result`). -/
def truncationNotice (max_length total : Nat) : String :=
  "\n\n" ++ ColorsWARNING ++ "(Note: Result was truncated to " ++ toString max_length
    ++ " characters out of " ++ toString total ++ " total characters.)" ++ ColorsENDC

/-- `serialize_tool_result` from `src/main.py`. -/
def serialize_tool_result (tool_result : Value) (max_length : Nat) : String :=
  let serialized_result := serializedText tool_result
  if serialized_result.length > max_length then
    pySlice serialized_result max_length
      ++ truncationNotice max_length serialized_result.length
  else
    serialized_result

/-- Decoded keyword arguments of one tool call (a Python dict of JSON
values, as produced by `json.loads`). -/
abbrev Args := List (String × Value)

/-- The body of a Python function that can serve as a dynamically defined
tool: it receives the keyword arguments and either returns a value or raises
(modelled as `Except.error` carrying the exception's text). -/
abbrev PyDef := Args → Except String Value

/-- An entry of `available_functions`: one of the three built-ins, or a
model-authored function extracted from the interpreter globals. -/
inductive Func where
  | builtin_create_or_update_tool
  | builtin_install_package
  | builtin_task_completed
  | dynamic (f : PyDef)

/-- The function bindings of the interpreter's global scope, as far as
`create_or_update_tool` consults them (`exec(code, globals())` followed by
`globals()[name]`). -/
abbrev GlobalEnv := List (String × PyDef)

/-- One element of the `tools` schema list that `register_tool` maintains:
the `function` object with its name, description, parameter properties and
the derived `required` list. -/
structure ToolEntry where
  name : String
  description : String
  properties : List (String × Value)
  required : List String

/-- The two module-level registries: the `tools` schema list and the
`available_functions` name-to-implementation dict. -/
structure Registry where
  tools : List ToolEntry
  available_functions : List (String × Func)

/-- `register_tool` from `src/main.py`: drop every schema entry carrying
`name`, bind the implementation under `name`, and append the fresh schema
entry with `required` equal to the listed parameter names. The
`available_functions` dict is modelled as an association list whose update
removes the old binding. -/
def register_tool (r : Registry) (name : String) (func : Func)
    (description : String) (parameters : List (String × Value)) : Registry :=
  { tools := (r.tools.filter (fun tool => tool.name != name))
      ++ [{ name := name, description := description, properties := parameters,
            required := parameters.map Prod.fst }],
    available_functions :=
      (name, func) :: (r.available_functions.filter (fun p => p.1 != name)) }

/-- `available_functions.get(function_name)`: dict lookup, `none` when the
name is absent. -/
def lookup_function (r : Registry) (name : String) : Option Func :=
  (r.available_functions.find? (fun p => p.1 == name)).map Prod.snd

/-- Lookup in the global scope, `globals()[name]` as a total function. -/
def lookup_global (g : GlobalEnv) (name : String) : Option PyDef :=
  (g.find? (fun p => p.1 == name)).map Prod.snd

/-- A tool call request inside an assistant message: correlation id, function
name, and the arguments as serialized text. -/
structure ToolCall where
  id : String
  name : String
  arguments : String
deriving DecidableEq

/-- The assistant message returned by the completion boundary: optional text
content plus an ordered list of tool call requests (`None` tool_calls is
modelled as the empty list; both are falsy in the source's check). -/
structure AssistantMsg where
  content : Option String
  tool_calls : List ToolCall
deriving DecidableEq

/-- One message of the conversation transcript. -/
inductive Message where
  | system (content : String)
  | user (content : String)
  | assistant (m : AssistantMsg)
  | tool (name : String) (tool_call_id : String) (content : String)
deriving DecidableEq

/-- The external collaborators, modelled as oracles: the litellm completion
call (indexed by the iteration counter, receiving the transcript and the
schema list; `Except.error` is the call raising), the stdlib JSON parser
(`Except.error` is a decode exception), Python `exec` on the global scope
(returning the updated scope and the raised exception's text, if any), and
the pip subprocess (`some e` is a raised error). -/
structure Env where
  completionFn : Nat → List Message → List ToolEntry → Except String AssistantMsg
  jsonLoads : String → Except String Args
  execPython : String → GlobalEnv → GlobalEnv × Option String
  pipInstall : Value → Option String

/-- `task_completed` from `src/main.py`. -/
def task_completed : String := "Task marked as completed."

/-- `install_package` from `src/main.py`: the `subprocess.check_call` is the
`pipInstall` oracle; both messages interpolate `str(package_name)`. -/
def install_package (env : Env) (package_name : Value) : String :=
  match env.pipInstall package_name with
  | none => "Package '" ++ pyStr package_name ++ "' installed successfully."
  | some e => "Error installing package '" ++ pyStr package_name ++ "': " ++ e

/-- What `str()` shows for the `KeyError` raised by `globals()[name]`:
the missing key in quotes. -/
def keyErrorText (name : String) : String := "'" ++ name ++ "'"

/-- `create_or_update_tool` from `src/main.py`: run `exec(code, globals())`;
on an exception report it; otherwise take `globals()[name]` (its absence is
the `KeyError` case) and register it via `register_tool`. Returns the updated
global scope, the updated registry and the textual result. -/
def create_or_update_tool (env : Env) (g : GlobalEnv) (r : Registry)
    (name code description : String) (parameters : List (String × Value)) :
    GlobalEnv × Registry × String :=
  match env.execPython code g with
  | (g2, some e) => (g2, r, "Error creating/updating tool '" ++ name ++ "': " ++ e)
  | (g2, none) =>
      match lookup_global g2 name with
      | none =>
          (g2, r, "Error creating/updating tool '" ++ name ++ "': " ++ keyErrorText name)
      | some f =>
          (g2, register_tool r name (Func.dynamic f) description parameters,
            "Tool '" ++ name ++ "' created/updated successfully.")

/-- The `TypeError` Python raises for `func(**args)` when `args` holds a key
that is not a parameter of `func`, or `none` when every key is expected. -/
def unexpectedKeyword (fname : String) (params : List String) (args : Args) :
    Option String :=
  match args.find? (fun p => !(params.contains p.1)) with
  | some p => some (fname ++ "() got an unexpected keyword argument '" ++ p.1 ++ "'")
  | none => none

/-- The `TypeError` Python raises for `func(**args)` when a parameter of
`func` has no binding in `args`, or `none` when all are bound. -/
def missingArgument (fname : String) (params : List String) (args : Args) :
    Option String :=
  match params.find? (fun q => !(args.any (fun p => p.1 == q))) with
  | some q => some (fname ++ "() missing 1 required positional argument: '" ++ q ++ "'")
  | none => none

/-- The binding of `args` to a keyword parameter: the first value bound to
`k`. -/
def lookupArg (args : Args) (k : String) : Option Value :=
  (args.find? (fun p => p.1 == k)).map Prod.snd

/-- Python string check for an argument that the built-ins require to be
text. -/
def asString : Value → Option String
  | Value.str s => some s
  | _ => none

/-- Python dict check for the `parameters` argument of
`create_or_update_tool`. -/
def asDict : Value → Option (List (String × Value))
  | Value.dict kvs => some kvs
  | _ => none

/-- The semantics of `func(**args)` for a registered implementation: the
keyword binding of `**args` (a mismatch is the `TypeError` the call raises),
then the body. For `create_or_update_tool` an ill-typed argument is modelled
as the call failing with the exception Python would eventually raise, without
the body running. Returns the possibly updated registry and global scope
together with the outcome. -/
def invoke_func (env : Env) (r : Registry) (g : GlobalEnv) (f : Func)
    (args : Args) : Registry × GlobalEnv × Except String Value :=
  match f with
  | Func.builtin_task_completed =>
      match unexpectedKeyword "task_completed" [] args with
      | some e => (r, g, Except.error e)
      | none => (r, g, Except.ok (Value.str task_completed))
  | Func.builtin_install_package =>
      match unexpectedKeyword "install_package" ["package_name"] args with
      | some e => (r, g, Except.error e)
      | none =>
          match missingArgument "install_package" ["package_name"] args with
          | some e => (r, g, Except.error e)
          | none =>
              match lookupArg args "package_name" with
              | some v => (r, g, Except.ok (Value.str (install_package env v)))
              | none => (r, g, Except.error "install_package() missing 1 required positional argument: 'package_name'")
  | Func.builtin_create_or_update_tool =>
      match unexpectedKeyword "create_or_update_tool" ["name", "code", "description", "parameters"] args with
      | some e => (r, g, Except.error e)
      | none =>
          match missingArgument "create_or_update_tool" ["name", "code", "description", "parameters"] args with
          | some e => (r, g, Except.error e)
          | none =>
              match (lookupArg args "name").bind asString,
                    (lookupArg args "code").bind asString,
                    (lookupArg args "description").bind asString,
                    (lookupArg args "parameters").bind asDict with
              | some name, some code, some description, some parameters =>
                  match create_or_update_tool env g r name code description parameters with
                  | (g2, r2, msg) => (r2, g2, Except.ok (Value.str msg))
              | _, _, _, _ =>
                  (r, g, Except.error "create_or_update_tool() received an ill-typed argument")
  | Func.dynamic f => (r, g, f args)

/-- `call_tool` from `src/main.py`: look the name up (absence yields the
not-found text), invoke the implementation, and convert a raised exception
into the `Error executing` text. Total: it never propagates a failure. -/
def call_tool (env : Env) (r : Registry) (g : GlobalEnv)
    (function_name : String) (args : Args) : Registry × GlobalEnv × Value :=
  match lookup_function r function_name with
  | none => (r, g, Value.str ("Tool '" ++ function_name ++ "' not found."))
  | some func =>
      match invoke_func env r g func args with
      | (r2, g2, Except.ok result) => (r2, g2, result)
      | (r2, g2, Except.error e) =>
          (r2, g2, Value.str ("Error executing '" ++ function_name ++ "': " ++ e))

/-- The parameter schema passed to `register_tool` for
`create_or_update_tool` at module initialization. -/
def createOrUpdateParams : List (String × Value) :=
  [("name", Value.dict [("type", Value.str "string"),
      ("description", Value.str "The tool name.")]),
   ("code", Value.dict [("type", Value.str "string"),
      ("description", Value.str "The Python code for the tool.")]),
   ("description", Value.dict [("type", Value.str "string"),
      ("description", Value.str "A description of the tool.")]),
   ("parameters", Value.dict [("type", Value.str "object"),
      ("description", Value.str "A dictionary defining the parameters for the tool.")])]

/-- The parameter schema passed to `register_tool` for `install_package` at
module initialization. -/
def installPackageParams : List (String × Value) :=
  [("package_name", Value.dict [("type", Value.str "string"),
      ("description", Value.str "The name of the package to install.")])]

/-- The registry state after the module-level `register_tool` calls that
install the three built-in tools. -/
def initialRegistry : Registry :=
  register_tool
    (register_tool
      (register_tool { tools := [], available_functions := [] }
        "create_or_update_tool" Func.builtin_create_or_update_tool
        "Creates or updates a tool with the specified name, code, description, and parameters."
        createOrUpdateParams)
      "install_package" Func.builtin_install_package
      "Installs a Python package using pip."
      installPackageParams)
    "task_completed" Func.builtin_task_completed
    "Marks the current task as completed." []

/-- The mutable state of `run_main_loop`: the transcript, the two registry
structures, the iteration counter, and the trace of `sleep` calls performed
(each entry is the number of seconds slept, recording the fixed backoff). -/
structure LoopState where
  messages : List Message
  registry : Registry
  genv : GlobalEnv
  iteration : Nat
  sleeps : List Nat

/-- The tool-role message appended for one tool call request: name, the
request's correlation id, and the serialized (possibly truncated) result. -/
def toolResultMessage (tc : ToolCall) (result : Value) : Message :=
  Message.tool tc.name tc.id (serialize_tool_result result MAX_TOOL_OUTPUT_LENGTH)

/-- The `for tool_call in response_message.tool_calls` body: decode the
arguments with `json.loads`, run `call_tool`, serialize, and append one
tool-role message — in request order. A decode failure raises out of the
loop body: the returned flag is `true`, no message is appended for the
failing request, and the remaining requests are not processed (the exception
lands in the turn-level handler). -/
def processToolCalls (env : Env) :
    Registry → GlobalEnv → List Message → List ToolCall →
    List Message × Registry × GlobalEnv × Bool
  | r, g, msgs, [] => (msgs, r, g, false)
  | r, g, msgs, tc :: rest =>
      match env.jsonLoads tc.arguments with
      | Except.error _ => (msgs, r, g, true)
      | Except.ok args =>
          match call_tool env r g tc.name args with
          | (r2, g2, result) =>
              processToolCalls env r2 g2 (msgs ++ [toolResultMessage tc result]) rest

/-- Whether the turn `break`s out of the `while` loop (the sentinel tool was
requested) or falls through to the next iteration. -/
inductive TurnSignal where
  | continued
  | completed
deriving DecidableEq

/-- One pass of the `while iteration < max_iterations` body. A completion
failure (or the decode exception re-raised out of the tool loop) is caught by
the `except` clause; every non-`break` path ends with `iteration += 1` and
`sleep(2)`, while the `break` on a requested `task_completed` skips both. -/
def runIteration (env : Env) (s : LoopState) : LoopState × TurnSignal :=
  match env.completionFn s.iteration s.messages s.registry.tools with
  | Except.error _ =>
      ({ s with iteration := s.iteration + 1, sleeps := s.sleeps ++ [2] },
        TurnSignal.continued)
  | Except.ok response_message =>
      let msgs1 := s.messages ++ [Message.assistant response_message]
      if response_message.tool_calls.isEmpty then
        ({ s with
            messages := msgs1
            iteration := s.iteration + 1
            sleeps := s.sleeps ++ [2] }, TurnSignal.continued)
      else
        match processToolCalls env s.registry s.genv msgs1 response_message.tool_calls with
        | (msgs2, r2, g2, aborted) =>
            if aborted then
              ({ messages := msgs2, registry := r2, genv := g2
                 iteration := s.iteration + 1, sleeps := s.sleeps ++ [2] },
                TurnSignal.continued)
            else if response_message.tool_calls.any (fun tc => tc.name == "task_completed") then
              ({ messages := msgs2, registry := r2, genv := g2
                 iteration := s.iteration, sleeps := s.sleeps },
                TurnSignal.completed)
            else
              ({ messages := msgs2, registry := r2, genv := g2
                 iteration := s.iteration + 1, sleeps := s.sleeps ++ [2] },
                TurnSignal.continued)

/-- How a run ends: through the sentinel tool (`break`) or by the `while`
condition failing at the iteration ceiling. -/
inductive Outcome where
  | completed
  | exhausted
deriving DecidableEq

/-- The `while iteration < max_iterations` loop, driven by fuel; with fuel
equal to `max_iterations` minus the starting iteration this is exactly the
source's loop, since every non-`break` pass increments `iteration` by one. -/
def runFrom (env : Env) (max_iterations : Nat) :
    Nat → LoopState → LoopState × Outcome
  | 0, s => (s, Outcome.exhausted)
  | Nat.succ fuel, s =>
      if s.iteration < max_iterations then
        match runIteration env s with
        | (s2, TurnSignal.completed) => (s2, Outcome.completed)
        | (s2, TurnSignal.continued) => runFrom env max_iterations fuel s2
      else (s, Outcome.exhausted)

/-- The conversation `run_main_loop` starts from: one system message and one
user message. -/
def initialState (system_prompt user_prompt : String) (r : Registry)
    (g : GlobalEnv) : LoopState :=
  { messages := [Message.system system_prompt, Message.user user_prompt],
    registry := r, genv := g, iteration := 0, sleeps := [] }

/-- `run_main_loop` from `src/main.py`: seed the conversation, then iterate
with `iteration, max_iterations = 0, 50`. The system prompt is taken as the
already-formatted string (prompt loading and the API-key substitution are the
excluded prompt-source boundary). -/
def run_main_loop (env : Env) (system_prompt user_prompt : String)
    (r : Registry) (g : GlobalEnv) : LoopState × Outcome :=
  runFrom env 50 50 (initialState system_prompt user_prompt r g)

/-- Whether a message carries the tool role. -/
def isToolMessage : Message → Bool
  | Message.tool _ _ _ => true
  | _ => false

/-- One `register_tool` call, as data, for reasoning about arbitrary
sequences of registrations. -/
structure RegOp where
  name : String
  func : Func
  description : String
  parameters : List (String × Value)

/-- Apply a sequence of `register_tool` calls in order. -/
def applyRegs (r : Registry) (ops : List RegOp) : Registry :=
  ops.foldl (fun acc op => register_tool acc op.name op.func op.description op.parameters) r

/-- The registry invariant of the spec: tool names are unique in the schema
list and in the implementation dict. -/
def UniqueNames (r : Registry) : Prop :=
  (r.tools.map ToolEntry.name).Nodup ∧ (r.available_functions.map Prod.fst).Nodup

/-- The JSON decode failure text used by the concrete environments below. -/
def decodeFailText : String := "Expecting value: line 1 column 1 (char 0)"

/-- A conversation state shared by the concrete scenarios: fresh transcript,
built-in registry, empty global function scope. -/
def baseState : LoopState := initialState "sys" "task" initialRegistry []

/-- Scenario C1: a turn requesting `install_package` with an undecodable
argument payload, followed by `task_completed`. -/
def amC1 : AssistantMsg :=
  { content := none,
    tool_calls := [{ id := "call_1", name := "install_package", arguments := "oops" },
                   { id := "call_2", name := "task_completed", arguments := "\x7b\x7d" }] }

/-- Environment for scenario C1: the completion call returns `amC1`; the JSON
parser accepts only the empty-object text. -/
def envC1 : Env :=
  { completionFn := fun _ _ _ => Except.ok amC1,
    jsonLoads := fun s => if s = "\x7b\x7d" then Except.ok [] else Except.error decodeFailText,
    execPython := fun _ g => (g, none),
    pipInstall := fun _ => none }

/-- Scenario for the amended C1: `task_completed` decodes and runs first,
then the second request's payload fails to decode. -/
def amC1b : AssistantMsg :=
  { content := none,
    tool_calls := [{ id := "call_1", name := "task_completed", arguments := "\x7b\x7d" },
                   { id := "call_2", name := "install_package", arguments := "oops" }] }

/-- Environment returning `amC1b`, with the same JSON parser as `envC1`. -/
def envC1b : Env :=
  { completionFn := fun _ _ _ => Except.ok amC1b,
    jsonLoads := fun s => if s = "\x7b\x7d" then Except.ok [] else Except.error decodeFailText,
    execPython := fun _ g => (g, none),
    pipInstall := fun _ => none }

/-- Scenario C2 (the spec's scenario): a turn requesting
`install_package("foo")` then `task_completed()`. -/
def amC2 : AssistantMsg :=
  { content := none,
    tool_calls := [{ id := "call_1", name := "install_package", arguments := "pkg" },
                   { id := "call_2", name := "task_completed", arguments := "\x7b\x7d" }] }

/-- Environment for scenario C2: both payloads decode, pip succeeds. -/
def envC2 : Env :=
  { completionFn := fun _ _ _ => Except.ok amC2,
    jsonLoads := fun s =>
      if s = "pkg" then Except.ok [("package_name", Value.str "foo")]
      else if s = "\x7b\x7d" then Except.ok []
      else Except.error decodeFailText,
    execPython := fun _ g => (g, none),
    pipInstall := fun _ => none }

/-- A short tool result for the serialization bound: serializes under the
maximum length. -/
def c3ShortVal : Value := Value.int 5

/-- A long tool result for the serialization bound: an object `json.dumps`
rejects, whose `str()` form is 5001 characters. -/
def c3LongVal : Value := Value.obj (String.mk (List.replicate 5001 'x'))

/-- A registration sequence that registers the same name twice with
different implementations (last-write-wins check). -/
def opsC5 : List RegOp :=
  [{ name := "fetch_url", func := Func.builtin_install_package,
     description := "first version", parameters := [] },
   { name := "fetch_url", func := Func.builtin_task_completed,
     description := "second version",
     parameters := [("url", Value.dict [("type", Value.str "string")])] }]

/-- Environment for scenario C6: `exec` always raises a syntax error. -/
def envC6 : Env :=
  { completionFn := fun _ _ _ => Except.error "unused",
    jsonLoads := fun _ => Except.error decodeFailText,
    execPython := fun _ g => (g, some "invalid syntax (<string>, line 1)"),
    pipInstall := fun _ => none }

/-- Environment for scenario C7: the completion boundary always raises. -/
def envC7 : Env :=
  { completionFn := fun _ _ _ => Except.error "APIConnectionError",
    jsonLoads := fun _ => Except.error decodeFailText,
    execPython := fun _ g => (g, none),
    pipInstall := fun _ => none }

/-- Environment for scenario C8: every turn answers with plain text and no
tool calls, so the completion signal never appears. -/
def envC8 : Env :=
  { completionFn := fun _ _ _ => Except.ok { content := some "hello", tool_calls := [] },
    jsonLoads := fun _ => Except.error decodeFailText,
    execPython := fun _ g => (g, none),
    pipInstall := fun _ => none }

/-- Scenario C10: the only request is `task_completed` with arguments it does
not accept, so its execution fails while its name is present. -/
def amC10 : AssistantMsg :=
  { content := none,
    tool_calls := [{ id := "call_1", name := "task_completed", arguments := "foo-arg" }] }

/-- Environment for scenario C10: the payload decodes to an unexpected
keyword argument. -/
def envC10 : Env :=
  { completionFn := fun _ _ _ => Except.ok amC10,
    jsonLoads := fun s =>
      if s = "foo-arg" then Except.ok [("foo", Value.int 1)] else Except.error decodeFailText,
    execPython := fun _ g => (g, none),
    pipInstall := fun _ => none }

lemma pySlice_length (s : String) (n : Nat) : (pySlice s n).length = min n s.length := by
  show (s.data.take n).length = min n s.data.length
  exact List.length_take n s.data

lemma truncationNotice_length_pos (m t : Nat) : 0 < (truncationNotice m t).length := by
  have h2 : ("\n\n" : String).length = 2 := rfl
  simp only [truncationNotice, String.length_append]
  omega

/-- C3: a tool result whose serialized text fits in 5000 characters enters
the conversation verbatim; a longer one is replaced by its first 5000
characters followed by the notice carrying the original total length, the
appended content is strictly longer than 5000 characters, and the mapping
depends only on the serialized text (deterministic). -/
theorem claimC3_truncation (v : Value) :
    ((serializedText v).length ≤ MAX_TOOL_OUTPUT_LENGTH →
      serialize_tool_result v MAX_TOOL_OUTPUT_LENGTH = serializedText v) ∧
    ((serializedText v).length > MAX_TOOL_OUTPUT_LENGTH →
      serialize_tool_result v MAX_TOOL_OUTPUT_LENGTH =
        pySlice (serializedText v) MAX_TOOL_OUTPUT_LENGTH ++
          truncationNotice MAX_TOOL_OUTPUT_LENGTH (serializedText v).length ∧
      MAX_TOOL_OUTPUT_LENGTH < (serialize_tool_result v MAX_TOOL_OUTPUT_LENGTH).length) ∧
    (∀ w : Value, serializedText w = serializedText v →
      serialize_tool_result w MAX_TOOL_OUTPUT_LENGTH =
        serialize_tool_result v MAX_TOOL_OUTPUT_LENGTH) := by
  refine ⟨?_, ?_, ?_⟩
  · intro h
    simp only [serialize_tool_result]
    rw [if_neg (by omega)]
  · intro h
    have heq : serialize_tool_result v MAX_TOOL_OUTPUT_LENGTH =
        pySlice (serializedText v) MAX_TOOL_OUTPUT_LENGTH ++
          truncationNotice MAX_TOOL_OUTPUT_LENGTH (serializedText v).length := by
      simp only [serialize_tool_result]
      rw [if_pos h]
    refine ⟨heq, ?_⟩
    rw [heq, String.length_append, pySlice_length,
      Nat.min_eq_left (Nat.le_of_lt h)]
    have := truncationNotice_length_pos MAX_TOOL_OUTPUT_LENGTH (serializedText v).length
    omega
  · intro w hw
    simp only [serialize_tool_result, hw]

/-- Witness for C3: a short result passes through unchanged, and the
5001-character result is truncated with the notice appended. -/
theorem claimC3_witness :
    ((serializedText c3ShortVal).length ≤ MAX_TOOL_OUTPUT_LENGTH ∧
      serialize_tool_result c3ShortVal MAX_TOOL_OUTPUT_LENGTH = serializedText c3ShortVal) ∧
    ((serializedText c3LongVal).length > MAX_TOOL_OUTPUT_LENGTH ∧
      serialize_tool_result c3LongVal MAX_TOOL_OUTPUT_LENGTH =
        pySlice (serializedText c3LongVal) MAX_TOOL_OUTPUT_LENGTH ++
          truncationNotice MAX_TOOL_OUTPUT_LENGTH (serializedText c3LongVal).length ∧
      MAX_TOOL_OUTPUT_LENGTH < (serialize_tool_result c3LongVal MAX_TOOL_OUTPUT_LENGTH).length) := by
  constructor
  · exact ⟨by decide, (claimC3_truncation c3ShortVal).1 (by decide)⟩
  · have hser : serializedText c3LongVal = String.mk (List.replicate 5001 'x') := rfl
    have hlen : (serializedText c3LongVal).length = 5001 := by
      rw [hser]
      show (List.replicate 5001 'x').length = 5001
      rw [List.length_replicate]
    have h : (serializedText c3LongVal).length > MAX_TOOL_OUTPUT_LENGTH := by
      rw [hlen]
      decide
    exact ⟨h, (claimC3_truncation c3LongVal).2.1 h⟩

/-- C4: result serialization is total — every value either has a canonical
JSON serialization, which is used, or none, in which case the best-effort
`str` conversion is used; no input makes the step fail. -/
theorem claimC4_serialization_total (v : Value) :
    (∃ s, jsonDumps v = some s ∧ serializedText v = s) ∨
    (jsonDumps v = none ∧ serializedText v = pyStr v) := by
  cases h : jsonDumps v with
  | none => exact Or.inr ⟨rfl, by simp [serializedText, h]⟩
  | some s => exact Or.inl ⟨s, rfl, by simp [serializedText, h]⟩

lemma register_tool_unique (r : Registry) (n : String) (f : Func) (d : String)
    (p : List (String × Value)) (h : UniqueNames r) :
    UniqueNames (register_tool r n f d p) := by
  obtain ⟨ht, ha⟩ := h
  unfold UniqueNames register_tool
  constructor
  · rw [List.map_append]
    refine List.Nodup.append ?_ (by simp) ?_
    · exact ht.sublist ((r.tools.filter_sublist).map ToolEntry.name)
    · intro a haa hab
      simp only [List.map_cons, List.map_nil, List.mem_singleton] at hab
      subst hab
      obtain ⟨t, htt, htn⟩ := List.mem_map.mp haa
      rw [List.mem_filter] at htt
      exact (bne_iff_ne.mp htt.2) htn
  · rw [List.map_cons]
    rw [List.nodup_cons]
    constructor
    · intro hmem
      obtain ⟨q, hq, hqn⟩ := List.mem_map.mp hmem
      rw [List.mem_filter] at hq
      exact (bne_iff_ne.mp hq.2) hqn
    · exact ha.sublist ((r.available_functions.filter_sublist).map Prod.fst)

lemma applyRegs_unique : ∀ (ops : List RegOp) (r : Registry),
    UniqueNames r → UniqueNames (applyRegs r ops) := by
  intro ops
  induction ops with
  | nil => intro r h; exact h
  | cons op ops ih =>
      intro r h
      exact ih _ (register_tool_unique r op.name op.func op.description op.parameters h)

lemma lookup_function_register (r : Registry) (n : String) (f : Func) (d : String)
    (p : List (String × Value)) :
    lookup_function (register_tool r n f d p) n = some f := by
  simp [lookup_function, register_tool, List.find?_cons_of_pos]

lemma register_tool_schema (r : Registry) (n : String) (f : Func) (d : String)
    (p : List (String × Value)) :
    (register_tool r n f d p).tools.filter (fun t => t.name == n) =
      [{ name := n, description := d, properties := p, required := p.map Prod.fst }] := by
  unfold register_tool
  rw [List.filter_append]
  have h1 : (r.tools.filter (fun tool => tool.name != n)).filter (fun t => t.name == n) = [] := by
    rw [List.filter_eq_nil_iff]
    intro t htt
    rw [List.mem_filter] at htt
    simp only [bne] at htt
    rcases hb : (t.name == n) with _ | _
    · simp
    · rw [hb] at htt; simp at htt
  rw [h1]
  simp

/-- C5: tool names stay unique through any sequence of registrations;
registering an existing name replaces the prior entry, so a subsequent
lookup resolves to the new implementation, and the schema list holds exactly
one entry under the name — the newly registered one. -/
theorem claimC5_registry_unique (ops : List RegOp) (r : Registry) (h : UniqueNames r) :
    UniqueNames (applyRegs r ops) ∧
    (∀ (n : String) (f : Func) (d : String) (p : List (String × Value)),
      lookup_function (register_tool (applyRegs r ops) n f d p) n = some f) ∧
    (∀ (n : String) (f : Func) (d : String) (p : List (String × Value)),
      (register_tool (applyRegs r ops) n f d p).tools.filter (fun t => t.name == n) =
        [{ name := n, description := d, properties := p, required := p.map Prod.fst }]) := by
  refine ⟨applyRegs_unique ops r h, ?_, ?_⟩
  · intro n f d p
    exact lookup_function_register (applyRegs r ops) n f d p
  · intro n f d p
    exact register_tool_schema (applyRegs r ops) n f d p

/-- Witness for C5: starting from the built-in registry and registering
`fetch_url` twice, names stay unique; the duplicate registration resolves to
the second implementation only. -/
theorem claimC5_witness :
    (UniqueNames (applyRegs initialRegistry opsC5) ∧
      (∀ (n : String) (f : Func) (d : String) (p : List (String × Value)),
        lookup_function (register_tool (applyRegs initialRegistry opsC5) n f d p) n = some f) ∧
      (∀ (n : String) (f : Func) (d : String) (p : List (String × Value)),
        (register_tool (applyRegs initialRegistry opsC5) n f d p).tools.filter
            (fun t => t.name == n) =
          [{ name := n, description := d, properties := p, required := p.map Prod.fst }])) ∧
    lookup_function (applyRegs initialRegistry opsC5) "fetch_url" =
      some Func.builtin_task_completed ∧
    ((applyRegs initialRegistry opsC5).tools.map ToolEntry.name).Nodup := by
  refine ⟨claimC5_registry_unique opsC5 initialRegistry ⟨by decide, by decide⟩, rfl, by decide⟩

lemma head_data_append (a x : String) (c : Char) (ha : a.data.head? = some c) :
    (a ++ x).data.head? = some c := by
  rw [String.data_append]
  cases az : a.data with
  | nil => rw [az] at ha; simp at ha
  | cons u l => rw [az] at ha; simpa using ha

lemma ne_of_head_ne (s t : String) (c d : Char) (hs : s.data.head? = some c)
    (ht : t.data.head? = some d) (hcd : c ≠ d) : s ≠ t := by
  intro h
  rw [h, ht] at hs
  exact hcd (Option.some.inj hs).symm

/-- C9: invoking a tool name absent from the registry never raises — the
executor returns the not-found text, which mentions the missing name, with
the registry and globals untouched; processing then continues with the
remaining tool calls of the turn. -/
theorem claimC9_unknown_tool (env : Env) (r : Registry) (g : GlobalEnv)
    (function_name : String) (args : Args)
    (h : lookup_function r function_name = none) :
    call_tool env r g function_name args =
      (r, g, Value.str ("Tool '" ++ function_name ++ "' not found.")) ∧
    function_name.data <:+: ("Tool '" ++ function_name ++ "' not found.").data ∧
    (∀ (msgs : List Message) (tc : ToolCall) (rest : List ToolCall),
      tc.name = function_name →
      env.jsonLoads tc.arguments = Except.ok args →
      processToolCalls env r g msgs (tc :: rest) =
        processToolCalls env r g
          (msgs ++ [toolResultMessage tc
            (Value.str ("Tool '" ++ function_name ++ "' not found."))]) rest) := by
  have hcall : call_tool env r g function_name args =
      (r, g, Value.str ("Tool '" ++ function_name ++ "' not found.")) := by
    unfold call_tool
    rw [h]
  refine ⟨hcall, ?_, ?_⟩
  · refine ⟨"Tool '".data, "' not found.".data, ?_⟩
    rw [String.data_append, String.data_append]
  · intro msgs tc rest hname hjson
    simp only [processToolCalls, hjson, hname, hcall]

/-- Witness for C9: a name the built-in registry does not contain. -/
theorem claimC9_witness :
    call_tool envC7 initialRegistry [] "fetch_data" [] =
      (initialRegistry, [], Value.str ("Tool '" ++ "fetch_data" ++ "' not found.")) ∧
    ("fetch_data" : String).data <:+: ("Tool '" ++ "fetch_data" ++ "' not found.").data ∧
    (∀ (msgs : List Message) (tc : ToolCall) (rest : List ToolCall),
      tc.name = "fetch_data" →
      envC7.jsonLoads tc.arguments = Except.ok [] →
      processToolCalls envC7 initialRegistry [] msgs (tc :: rest) =
        processToolCalls envC7 initialRegistry []
          (msgs ++ [toolResultMessage tc
            (Value.str ("Tool '" ++ "fetch_data" ++ "' not found."))]) rest) :=
  claimC9_unknown_tool envC7 initialRegistry [] "fetch_data" [] rfl

lemma failure_text_head (name e : String) :
    ("Error creating/updating tool '" ++ name ++ "': " ++ e).data.head? = some 'E' :=
  head_data_append _ e 'E'
    (head_data_append _ "': " 'E' (head_data_append _ name 'E' rfl))

lemma success_text_head (name : String) :
    ("Tool '" ++ name ++ "' created/updated successfully.").data.head? = some 'T' :=
  head_data_append _ "' created/updated successfully." 'T'
    (head_data_append _ name 'T' rfl)

/-- C6: when the definition step of a dynamic tool fails — `exec` raises
(compile error or runtime error in top-level code) or the executed code does
not bind the tool's name — `create_or_update_tool` returns an error text
distinct from the success text, leaves the registry unchanged, and a turn
consisting of such define calls never terminates the loop. -/
theorem claimC6_define_failure (env : Env) (g : GlobalEnv) (r : Registry)
    (name code description : String) (parameters : List (String × Value))
    (h : (env.execPython code g).2.isSome = true ∨
      lookup_global (env.execPython code g).1 name = none) :
    (create_or_update_tool env g r name code description parameters).2.1 = r ∧
    (∃ e, (create_or_update_tool env g r name code description parameters).2.2 =
      "Error creating/updating tool '" ++ name ++ "': " ++ e) ∧
    (create_or_update_tool env g r name code description parameters).2.2 ≠
      "Tool '" ++ name ++ "' created/updated successfully." ∧
    (∀ (s : LoopState) (am : AssistantMsg),
      env.completionFn s.iteration s.messages s.registry.tools = Except.ok am →
      (∀ tc ∈ am.tool_calls, tc.name = "create_or_update_tool") →
      (runIteration env s).2 = TurnSignal.continued) := by
  have hloop : ∀ (s : LoopState) (am : AssistantMsg),
      env.completionFn s.iteration s.messages s.registry.tools = Except.ok am →
      (∀ tc ∈ am.tool_calls, tc.name = "create_or_update_tool") →
      (runIteration env s).2 = TurnSignal.continued := by
    intro s am hresp hnames
    cases he : am.tool_calls.isEmpty with
    | true => simp [runIteration, hresp, he]
    | false =>
        rcases hp : processToolCalls env s.registry s.genv
            (s.messages ++ [Message.assistant am]) am.tool_calls with ⟨msgs2, r2, g2, aborted⟩
        cases aborted with
        | true => simp [runIteration, hresp, he, hp]
        | false =>
            have hany : am.tool_calls.any (fun tc => tc.name == "task_completed") = false := by
              rw [List.any_eq_false]
              intro tc htc
              rw [hnames tc htc]
              decide
            simp [runIteration, hresp, he, hp, hany]
  have hfail : ∃ e, create_or_update_tool env g r name code description parameters =
      ((env.execPython code g).1, r,
        "Error creating/updating tool '" ++ name ++ "': " ++ e) := by
    unfold create_or_update_tool
    rcases hexec : env.execPython code g with ⟨g2, oe⟩
    cases oe with
    | some e => exact ⟨e, rfl⟩
    | none =>
        have hlg : lookup_global g2 name = none := by
          rcases h with hsome | hnone
          · rw [hexec] at hsome; simp at hsome
          · rw [hexec] at hnone; exact hnone
        refine ⟨keyErrorText name, ?_⟩
        dsimp only
        rw [hlg]
  obtain ⟨e, he⟩ := hfail
  refine ⟨by rw [he], ⟨e, by rw [he]⟩, ?_, hloop⟩
  rw [he]
  exact ne_of_head_ne _ _ 'E' 'T' (failure_text_head name e) (success_text_head name) (by decide)

/-- Witness for C6: `exec` raising a syntax error leaves the built-in
registry unchanged and yields the error text. -/
theorem claimC6_witness :
    (create_or_update_tool envC6 [] initialRegistry "bad_tool" "def bad_tool(:" "d" []).2.1 =
      initialRegistry ∧
    (∃ e, (create_or_update_tool envC6 [] initialRegistry "bad_tool" "def bad_tool(:" "d" []).2.2 =
      "Error creating/updating tool '" ++ "bad_tool" ++ "': " ++ e) ∧
    (create_or_update_tool envC6 [] initialRegistry "bad_tool" "def bad_tool(:" "d" []).2.2 ≠
      "Tool '" ++ "bad_tool" ++ "' created/updated successfully." ∧
    (∀ (s : LoopState) (am : AssistantMsg),
      envC6.completionFn s.iteration s.messages s.registry.tools = Except.ok am →
      (∀ tc ∈ am.tool_calls, tc.name = "create_or_update_tool") →
      (runIteration envC6 s).2 = TurnSignal.continued) :=
  claimC6_define_failure envC6 [] initialRegistry "bad_tool" "def bad_tool(:" "d" []
    (Or.inl rfl)

/-- C7: a turn on which the completion call raises appends nothing, leaves
registry and globals untouched, increments the turn counter, performs the
fixed 2-second backoff, and hands the unchanged conversation to the next
turn. -/
theorem claimC7_completion_error_noop_turn (env : Env) (s : LoopState) (e : String)
    (h : env.completionFn s.iteration s.messages s.registry.tools = Except.error e) :
    (runIteration env s).1.messages = s.messages ∧
    (runIteration env s).1.registry = s.registry ∧
    (runIteration env s).1.genv = s.genv ∧
    (runIteration env s).1.iteration = s.iteration + 1 ∧
    (runIteration env s).1.sleeps = s.sleeps ++ [2] ∧
    (runIteration env s).2 = TurnSignal.continued := by
  simp [runIteration, h]

/-- Witness for C7: the completion boundary raising a connection error. -/
theorem claimC7_witness :
    (runIteration envC7 baseState).1.messages = baseState.messages ∧
    (runIteration envC7 baseState).1.registry = baseState.registry ∧
    (runIteration envC7 baseState).1.genv = baseState.genv ∧
    (runIteration envC7 baseState).1.iteration = baseState.iteration + 1 ∧
    (runIteration envC7 baseState).1.sleeps = baseState.sleeps ++ [2] ∧
    (runIteration envC7 baseState).2 = TurnSignal.continued :=
  claimC7_completion_error_noop_turn envC7 baseState "APIConnectionError" rfl

lemma processToolCalls_messages_monotone (env : Env) :
    ∀ (tcs : List ToolCall) (r : Registry) (g : GlobalEnv) (msgs : List Message),
      msgs <+: (processToolCalls env r g msgs tcs).1 := by
  intro tcs
  induction tcs with
  | nil => intro r g msgs; exact List.prefix_refl msgs
  | cons tc rest ih =>
      intro r g msgs
      cases hj : env.jsonLoads tc.arguments with
      | error e => simp only [processToolCalls, hj]; exact List.prefix_refl msgs
      | ok args =>
          rcases hc : call_tool env r g tc.name args with ⟨r2, g2, result⟩
          simp only [processToolCalls, hj, hc]
          exact (List.prefix_append msgs [toolResultMessage tc result]).trans (ih r2 g2 _)

lemma runIteration_messages_monotone (env : Env) (s : LoopState) :
    s.messages <+: (runIteration env s).1.messages := by
  cases hresp : env.completionFn s.iteration s.messages s.registry.tools with
  | error e => simp [runIteration, hresp]
  | ok am =>
      cases he : am.tool_calls.isEmpty with
      | true =>
          simp [runIteration, hresp, he]
      | false =>
          rcases hp : processToolCalls env s.registry s.genv
              (s.messages ++ [Message.assistant am]) am.tool_calls with ⟨msgs2, r2, g2, aborted⟩
          have hpre : s.messages <+: msgs2 := by
            have := processToolCalls_messages_monotone env am.tool_calls s.registry s.genv
              (s.messages ++ [Message.assistant am])
            rw [hp] at this
            exact (List.prefix_append s.messages [Message.assistant am]).trans this
          cases aborted with
          | true => simpa [runIteration, hresp, he, hp] using hpre
          | false =>
              cases hany : am.tool_calls.any (fun tc => tc.name == "task_completed") with
              | true => simpa [runIteration, hresp, he, hp, hany] using hpre
              | false => simpa [runIteration, hresp, he, hp, hany] using hpre

lemma runIteration_iteration_cases (env : Env) (s : LoopState) :
    ((runIteration env s).2 = TurnSignal.continued ∧
      (runIteration env s).1.iteration = s.iteration + 1) ∨
    ((runIteration env s).2 = TurnSignal.completed ∧
      (runIteration env s).1.iteration = s.iteration) := by
  cases hresp : env.completionFn s.iteration s.messages s.registry.tools with
  | error e => left; simp [runIteration, hresp]
  | ok am =>
      cases he : am.tool_calls.isEmpty with
      | true => left; simp [runIteration, hresp, he]
      | false =>
          rcases hp : processToolCalls env s.registry s.genv
              (s.messages ++ [Message.assistant am]) am.tool_calls with ⟨msgs2, r2, g2, aborted⟩
          cases aborted with
          | true => left; simp [runIteration, hresp, he, hp]
          | false =>
              cases hany : am.tool_calls.any (fun tc => tc.name == "task_completed") with
              | true => right; simp [runIteration, hresp, he, hp, hany]
              | false => left; simp [runIteration, hresp, he, hp, hany]

lemma runFrom_messages_monotone (env : Env) (max_iterations : Nat) :
    ∀ (fuel : Nat) (s : LoopState),
      s.messages <+: (runFrom env max_iterations fuel s).1.messages := by
  intro fuel
  induction fuel with
  | zero => intro s; exact List.prefix_refl s.messages
  | succ fuel ih =>
      intro s
      simp only [runFrom]
      by_cases hlt : s.iteration < max_iterations
      · rw [if_pos hlt]
        rcases hri : runIteration env s with ⟨s2, sig⟩
        have h1 : s.messages <+: s2.messages := by
          have := runIteration_messages_monotone env s
          rw [hri] at this
          exact this
        cases sig with
        | continued => exact h1.trans (ih s2)
        | completed => exact h1
      · rw [if_neg hlt]

lemma runFrom_iteration_bound (env : Env) :
    ∀ (fuel : Nat) (s : LoopState), s.iteration + fuel = 50 →
      (runFrom env 50 fuel s).1.iteration ≤ 50 ∧
      ((runFrom env 50 fuel s).2 = Outcome.exhausted →
        (runFrom env 50 fuel s).1.iteration = 50) := by
  intro fuel
  induction fuel with
  | zero =>
      intro s h
      simp only [runFrom]
      omega
  | succ fuel ih =>
      intro s h
      have hlt : s.iteration < 50 := by omega
      simp only [runFrom]
      rw [if_pos hlt]
      rcases hri : runIteration env s with ⟨s2, sig⟩
      have hit := runIteration_iteration_cases env s
      rw [hri] at hit
      cases sig with
      | completed =>
          rcases hit with ⟨hc, _⟩ | ⟨_, hi⟩
          · simp at hc
          · simp only at hi
            constructor
            · simp only
              omega
            · intro hcontra
              simp at hcontra
      | continued =>
          rcases hit with ⟨_, hi⟩ | ⟨hc, _⟩
          · simp only at hi
            exact ih s2 (by omega)
          · simp at hc

/-- C8: a run performs at most 50 turns; when it ends `Exhausted` the full
50 turns elapsed, and the conversation only ever grows, so the final
transcript still starts with everything appended earlier — in particular
with the seeded system and user messages. -/
theorem claimC8_iteration_ceiling (env : Env) (system_prompt user_prompt : String)
    (r : Registry) (g : GlobalEnv) :
    (run_main_loop env system_prompt user_prompt r g).1.iteration ≤ 50 ∧
    ((run_main_loop env system_prompt user_prompt r g).2 = Outcome.exhausted →
      (run_main_loop env system_prompt user_prompt r g).1.iteration = 50) ∧
    (∀ (fuel : Nat) (s : LoopState),
      s.messages <+: (runFrom env 50 fuel s).1.messages) ∧
    [Message.system system_prompt, Message.user user_prompt] <+:
      (run_main_loop env system_prompt user_prompt r g).1.messages := by
  have h := runFrom_iteration_bound env 50 (initialState system_prompt user_prompt r g) rfl
  exact ⟨h.1, h.2, runFrom_messages_monotone env 50,
    runFrom_messages_monotone env 50 50 (initialState system_prompt user_prompt r g)⟩

/-- Witness for C8: an environment that never requests the completion tool
runs exactly 50 turns and halts exhausted. -/
theorem claimC8_witness :
    (run_main_loop envC8 "sys" "task" initialRegistry []).2 = Outcome.exhausted ∧
    (run_main_loop envC8 "sys" "task" initialRegistry []).1.iteration = 50 ∧
    (run_main_loop envC8 "sys" "task" initialRegistry []).1.iteration ≤ 50 := by
  have hex : (run_main_loop envC8 "sys" "task" initialRegistry []).2 = Outcome.exhausted := by
    decide
  exact ⟨hex,
    (claimC8_iteration_ceiling envC8 "sys" "task" initialRegistry []).2.1 hex,
    (claimC8_iteration_ceiling envC8 "sys" "task" initialRegistry []).1⟩

/-- Counterexample to C1 as stated: in scenario C1 the turn requests two
tool calls and the first payload fails to decode, yet the turn appends no
tool-role result at all — not one per request — and abandons the sibling
request. -/
theorem claimC1_counterexample :
    amC1.tool_calls.length = 2 ∧
    envC1.jsonLoads "oops" = Except.error decodeFailText ∧
    (runIteration envC1 baseState).1.messages =
      baseState.messages ++ [Message.assistant amC1] ∧
    (runIteration envC1 baseState).1.messages.countP isToolMessage = 0 ∧
    (runIteration envC1 baseState).2 = TurnSignal.continued := by
  refine ⟨rfl, rfl, by decide, by decide, by decide⟩

lemma processToolCalls_cons_error (env : Env) (r : Registry) (g : GlobalEnv)
    (msgs : List Message) (tc : ToolCall) (rest : List ToolCall) (e : String)
    (hj : env.jsonLoads tc.arguments = Except.error e) :
    processToolCalls env r g msgs (tc :: rest) = (msgs, r, g, true) := by
  simp only [processToolCalls, hj]

lemma processToolCalls_cons_ok (env : Env) (r r2 : Registry) (g g2 : GlobalEnv)
    (msgs : List Message) (tc : ToolCall) (rest : List ToolCall) (args : Args)
    (result : Value) (hj : env.jsonLoads tc.arguments = Except.ok args)
    (hc : call_tool env r g tc.name args = (r2, g2, result)) :
    processToolCalls env r g msgs (tc :: rest) =
      processToolCalls env r2 g2 (msgs ++ [toolResultMessage tc result]) rest := by
  simp only [processToolCalls, hj, hc]

lemma processToolCalls_abort (env : Env) (bad : ToolCall) (rest : List ToolCall)
    (hbad : ∃ e, env.jsonLoads bad.arguments = Except.error e) :
    ∀ (pre : List ToolCall) (r : Registry) (g : GlobalEnv) (msgs : List Message),
      (∀ tc ∈ pre, ∃ args, env.jsonLoads tc.arguments = Except.ok args) →
      ∃ tms r2 g2,
        processToolCalls env r g msgs (pre ++ bad :: rest) = (msgs ++ tms, r2, g2, true) ∧
        tms.length = pre.length ∧ ∀ m ∈ tms, isToolMessage m = true := by
  intro pre
  induction pre with
  | nil =>
      intro r g msgs _
      obtain ⟨e, he⟩ := hbad
      refine ⟨[], r, g, ?_, rfl, by simp⟩
      rw [List.nil_append, processToolCalls_cons_error env r g msgs bad rest e he,
        List.append_nil]
  | cons tc pre ih =>
      intro r g msgs hpre
      obtain ⟨args, hargs⟩ := hpre tc (by simp)
      rcases hc : call_tool env r g tc.name args with ⟨r2, g2, result⟩
      obtain ⟨tms, r3, g3, heq, hlen, htool⟩ :=
        ih r2 g2 (msgs ++ [toolResultMessage tc result])
          (fun t ht => hpre t (by simp [ht]))
      refine ⟨toolResultMessage tc result :: tms, r3, g3, ?_, by simp [hlen], ?_⟩
      · rw [List.cons_append,
          processToolCalls_cons_ok env r r2 g g2 msgs tc (pre ++ bad :: rest) args result
            hargs hc,
          heq, List.append_assoc]
        rfl
      · intro m hm
        rcases List.mem_cons.mp hm with hm | hm
        · rw [hm]; rfl
        · exact htool m hm

/-- C1 amended: an argument payload that fails to decode is not surfaced as
a tool-role result; the decode exception aborts the turn's tool phase, so
the turn keeps the assistant message and one result per request that
preceded the failing one, appends nothing for the failing or later requests,
cannot complete, and the loop moves to the next turn. -/
theorem claimC1_decode_failure_aborts_turn (env : Env) (s : LoopState)
    (am : AssistantMsg) (pre : List ToolCall) (bad : ToolCall) (rest : List ToolCall)
    (hresp : env.completionFn s.iteration s.messages s.registry.tools = Except.ok am)
    (htc : am.tool_calls = pre ++ bad :: rest)
    (hpre : ∀ tc ∈ pre, ∃ args, env.jsonLoads tc.arguments = Except.ok args)
    (hbad : ∃ e, env.jsonLoads bad.arguments = Except.error e) :
    (runIteration env s).2 = TurnSignal.continued ∧
    (runIteration env s).1.iteration = s.iteration + 1 ∧
    ∃ tms, (runIteration env s).1.messages = s.messages ++ Message.assistant am :: tms ∧
      tms.length = pre.length ∧ ∀ m ∈ tms, isToolMessage m = true := by
  obtain ⟨tms, r2, g2, heq, hlen, htool⟩ :=
    processToolCalls_abort env bad rest hbad pre s.registry s.genv
      (s.messages ++ [Message.assistant am]) hpre
  have hne : am.tool_calls.isEmpty = false := by
    rw [htc]; cases pre <;> simp
  rw [← htc] at heq
  refine ⟨?_, ?_, tms, ?_, hlen, htool⟩ <;>
    simp [runIteration, hresp, hne, heq, List.append_assoc]

/-- Witness for C1 amended: `task_completed` decodes and runs first, then
the second request's payload fails to decode — one tool result is kept, the
turn does not complete. -/
theorem claimC1_witness :
    (runIteration envC1b baseState).2 = TurnSignal.continued ∧
    (runIteration envC1b baseState).1.iteration = baseState.iteration + 1 ∧
    ∃ tms, (runIteration envC1b baseState).1.messages =
        baseState.messages ++ Message.assistant amC1b :: tms ∧
      tms.length = 1 ∧ ∀ m ∈ tms, isToolMessage m = true := by
  have h := claimC1_decode_failure_aborts_turn envC1b baseState amC1b
    [{ id := "call_1", name := "task_completed", arguments := "\x7b\x7d" }]
    { id := "call_2", name := "install_package", arguments := "oops" } []
    rfl rfl
    (by intro tc htc
        simp only [List.mem_singleton] at htc
        subst htc
        exact ⟨[], rfl⟩)
    ⟨decodeFailText, rfl⟩
  exact h

lemma processToolCalls_complete (env : Env) :
    ∀ (tcs : List ToolCall) (r : Registry) (g : GlobalEnv) (msgs : List Message),
      (processToolCalls env r g msgs tcs).2.2.2 = false →
      ∃ tms, (processToolCalls env r g msgs tcs).1 = msgs ++ tms ∧
        List.Forall₂ (fun (tm : Message) (tc : ToolCall) =>
          ∃ content, tm = Message.tool tc.name tc.id content) tms tcs := by
  intro tcs
  induction tcs with
  | nil => intro r g msgs _; exact ⟨[], by simp [processToolCalls], List.Forall₂.nil⟩
  | cons tc rest ih =>
      intro r g msgs hok
      cases hj : env.jsonLoads tc.arguments with
      | error e =>
          rw [processToolCalls_cons_error env r g msgs tc rest e hj] at hok
          simp at hok
      | ok args =>
          rcases hc : call_tool env r g tc.name args with ⟨r2, g2, result⟩
          rw [processToolCalls_cons_ok env r r2 g g2 msgs tc rest args result hj hc] at hok
          obtain ⟨tms, heq, hfa⟩ := ih r2 g2 _ hok
          refine ⟨toolResultMessage tc result :: tms, ?_, ?_⟩
          · rw [processToolCalls_cons_ok env r r2 g g2 msgs tc rest args result hj hc,
              heq, List.append_assoc]
            rfl
          · exact List.Forall₂.cons ⟨serialize_tool_result result MAX_TOOL_OUTPUT_LENGTH, rfl⟩ hfa

/-- C2: whenever a turn completes the run, the completion call succeeded,
the sentinel tool was among the requests, and the final transcript extends
the previous one by the assistant message followed by exactly one tool-role
result per request — in request order, each carrying its request's name and
correlation id; the loop stops only after all of them are appended. -/
theorem claimC2_completion_after_all_results (env : Env) (s : LoopState)
    (h : (runIteration env s).2 = TurnSignal.completed) :
    ∃ am tms,
      env.completionFn s.iteration s.messages s.registry.tools = Except.ok am ∧
      am.tool_calls.any (fun tc => tc.name == "task_completed") = true ∧
      (runIteration env s).1.messages = s.messages ++ Message.assistant am :: tms ∧
      List.Forall₂ (fun (tm : Message) (tc : ToolCall) =>
        ∃ content, tm = Message.tool tc.name tc.id content) tms am.tool_calls := by
  cases hresp : env.completionFn s.iteration s.messages s.registry.tools with
  | error e => simp [runIteration, hresp] at h
  | ok am =>
      cases he : am.tool_calls.isEmpty with
      | true => simp [runIteration, hresp, he] at h
      | false =>
          rcases hp : processToolCalls env s.registry s.genv
              (s.messages ++ [Message.assistant am]) am.tool_calls with ⟨msgs2, r2, g2, aborted⟩
          cases aborted with
          | true => simp [runIteration, hresp, he, hp] at h
          | false =>
              cases hany : am.tool_calls.any (fun tc => tc.name == "task_completed") with
              | false => simp [runIteration, hresp, he, hp, hany] at h
              | true =>
                  obtain ⟨tms, heq, hfa⟩ := processToolCalls_complete env am.tool_calls
                    s.registry s.genv (s.messages ++ [Message.assistant am]) (by rw [hp])
                  rw [hp] at heq
                  refine ⟨am, tms, rfl, hany, ?_, hfa⟩
                  simp only at heq
                  simp [runIteration, hresp, he, hp, hany, heq, List.append_assoc]

/-- Witness for C2: the spec's scenario — `install_package("foo")` then
`task_completed()` — completes with both results appended in order. -/
theorem claimC2_witness :
    (runIteration envC2 baseState).2 = TurnSignal.completed ∧
    (∃ am tms,
      envC2.completionFn baseState.iteration baseState.messages baseState.registry.tools =
        Except.ok am ∧
      am.tool_calls.any (fun tc => tc.name == "task_completed") = true ∧
      (runIteration envC2 baseState).1.messages =
        baseState.messages ++ Message.assistant am :: tms ∧
      List.Forall₂ (fun (tm : Message) (tc : ToolCall) =>
        ∃ content, tm = Message.tool tc.name tc.id content) tms am.tool_calls) := by
  have h : (runIteration envC2 baseState).2 = TurnSignal.completed := by decide
  exact ⟨h, claimC2_completion_after_all_results envC2 baseState h⟩

lemma processToolCalls_no_abort (env : Env) :
    ∀ (tcs : List ToolCall) (r : Registry) (g : GlobalEnv) (msgs : List Message),
      (∀ tc ∈ tcs, ∃ args, env.jsonLoads tc.arguments = Except.ok args) →
      (processToolCalls env r g msgs tcs).2.2.2 = false := by
  intro tcs
  induction tcs with
  | nil => intro r g msgs _; rfl
  | cons tc rest ih =>
      intro r g msgs hdec
      obtain ⟨args, hargs⟩ := hdec tc (by simp)
      rcases hc : call_tool env r g tc.name args with ⟨r2, g2, result⟩
      rw [processToolCalls_cons_ok env r r2 g g2 msgs tc rest args result hargs hc]
      exact ih r2 g2 _ (fun t ht => hdec t (by simp [ht]))

/-- C10: a turn whose requests include the name `task_completed` transitions
to Completed at the end of its tool-execution phase (every payload decoding,
so the phase runs to its end) — regardless of whether any invocation,
including the completion call itself, produced an error result: completion
is keyed on the requested name alone. -/
theorem claimC10_completed_keyed_on_name (env : Env) (s : LoopState) (am : AssistantMsg)
    (hresp : env.completionFn s.iteration s.messages s.registry.tools = Except.ok am)
    (hdec : ∀ tc ∈ am.tool_calls, ∃ args, env.jsonLoads tc.arguments = Except.ok args)
    (hname : am.tool_calls.any (fun tc => tc.name == "task_completed") = true) :
    (runIteration env s).2 = TurnSignal.completed := by
  have hne : am.tool_calls.isEmpty = false := by
    cases hl : am.tool_calls with
    | nil => rw [hl] at hname; simp at hname
    | cons a l => simp [hl]
  rcases hp : processToolCalls env s.registry s.genv
      (s.messages ++ [Message.assistant am]) am.tool_calls with ⟨msgs2, r2, g2, aborted⟩
  have hab : aborted = false := by
    have := processToolCalls_no_abort env am.tool_calls s.registry s.genv
      (s.messages ++ [Message.assistant am]) hdec
    rw [hp] at this
    exact this
  subst hab
  simp [runIteration, hresp, hne, hp, hname]

set_option maxRecDepth 4096 in
/-- Witness for C10: the only request is `task_completed` with an unexpected
keyword argument — its execution produces an error result, which is appended,
and the turn still completes. -/
theorem claimC10_witness :
    (runIteration envC10 baseState).2 = TurnSignal.completed ∧
    (runIteration envC10 baseState).1.messages =
      baseState.messages ++
        [Message.assistant amC10,
         Message.tool "task_completed" "call_1"
           (jsonQuote "Error executing 'task_completed': task_completed() got an unexpected keyword argument 'foo'")] := by
  constructor
  · exact claimC10_completed_keyed_on_name envC10 baseState amC10 rfl
      (by intro tc htc
          simp only [amC10, List.mem_singleton] at htc
          subst htc
          exact ⟨[("foo", Value.int 1)], rfl⟩)
      (by decide)
  · decide

end BabyAgi
